import Mathlib

/-!
Verification development for the dataCollector repository.

The definitions below shallowly embed the parallel multi-target query
engine: `executor.QueryTargets` (src/executor/executor.go), the
orchestration decision in `main`, the workload handling in `main` and
`models.Workload`, and the header behaviour of `csv.WriteToCSV`.

Per-target network behaviour (whether connect or the query fails, and
what a successful query returns) is abstracted as a `TargetBehavior`
oracle; the completion order in which outcomes drain from the result
channels is abstracted as an arbitrary permutation of the per-target
outcomes.
-/

namespace DataCollector

/-- `database.QueryResult`: column names and text rows of one successful
query against one target. -/
structure QueryResult where
  Columns : List String
  Rows : List (List String)
deriving DecidableEq, Repr

/-- `executor.ExecutionResult`: the aggregated result returned by
`QueryTargets`. -/
structure ExecutionResult where
  Rows : List (List String)
  Columns : List String
  ErrorCount : Nat
  HasResults : Bool
deriving DecidableEq, Repr

/-- Behaviour of the database collaborator for one target: `Connect`
fails, or `ExecuteRawQuery` fails, or the query succeeds with a result. -/
inductive TargetBehavior where
  | connectFail (err : String)
  | queryFail (err : String)
  | success (result : QueryResult)
deriving DecidableEq, Repr

/-- A per-target outcome as sent on `resultsChan` (success) or
`errChan` (failure, tagged with the originating host in the message). -/
inductive Outcome where
  | success (result : QueryResult)
  | failure (host : String) (msg : String)
deriving DecidableEq, Repr

/-- What one dispatched goroutine did: the outcome it sent, and whether
it reached the `ExecuteRawQuery` step. -/
structure TargetRun where
  outcome : Outcome
  queryInvoked : Bool
deriving DecidableEq, Repr

/-- Error text of `fmt.Errorf("failed to connect to database %s on %s: %w", ...)`. -/
def connectFailMsg (dbName host err : String) : String :=
  "failed to connect to database " ++ dbName ++ " on " ++ host ++ ": " ++ err

/-- Error text of `fmt.Errorf("query execution failed on %s: %w", ...)`. -/
def queryFailMsg (host err : String) : String :=
  "query execution failed on " ++ host ++ ": " ++ err

/-- Body of the goroutine `QueryTargets` spawns for one target host:
connect; on failure send an error and return without querying; otherwise
query; on failure send an error; on success send the result. -/
def runTarget (dbName host : String) (beh : TargetBehavior) : TargetRun :=
  match beh with
  | .connectFail err => ⟨.failure host (connectFailMsg dbName host err), false⟩
  | .queryFail err => ⟨.failure host (queryFailMsg host err), true⟩
  | .success r => ⟨.success r, true⟩

/-- The multiset of per-target outcomes produced by the fan-out loop of
`QueryTargets`: one outcome per input target, in target order. -/
def dispatchOutcomes (dbName : String) (exec : String → TargetBehavior)
    (targets : List String) : List Outcome :=
  targets.map fun host => (runTarget dbName host (exec host)).outcome

/-- The successful results, in the order they drain from `resultsChan`. -/
def successResults (collected : List Outcome) : List QueryResult :=
  collected.filterMap fun o =>
    match o with
    | .success r => some r
    | .failure _ _ => none

/-- The number of errors drained from `errChan` (`errorCount` in the Go
source). -/
def failureCount (collected : List Outcome) : Nat :=
  collected.countP fun o =>
    match o with
    | .success _ => false
    | .failure _ _ => true

/-- The collection loop of `QueryTargets` (`for result := range resultsChan`):
state is `(allRows, columns, hasResults)`; a result's columns are adopted
only when `!hasResults && len(result.Columns) > 0`; a result's rows are
appended when `len(result.Rows) > 0`. -/
def collectLoop (allRows : List (List String)) (columns : List String)
    (hasResults : Bool) : List QueryResult → List (List String) × List String × Bool
  | [] => (allRows, columns, hasResults)
  | r :: rest =>
    let pick := hasResults = false ∧ 0 < r.Columns.length
    let allRows' := if 0 < r.Rows.length then allRows ++ r.Rows else allRows
    let columns' := if pick then r.Columns else columns
    let hasResults' := if pick then true else hasResults
    collectLoop allRows' columns' hasResults' rest

/-- The aggregation phase of `QueryTargets`, run single-threaded after the
barrier: fold the successes from `resultsChan` and count the errors. -/
def aggregate (results : List QueryResult) (errorCount : Nat) : ExecutionResult :=
  let st := collectLoop [] [] false results
  { Rows := st.1, Columns := st.2.1, ErrorCount := errorCount, HasResults := st.2.2 }

/-- The `ExecutionResult` that `QueryTargets` returns when the per-target
outcomes drain in order `collected`. -/
def queryTargetsResult (collected : List Outcome) : ExecutionResult :=
  aggregate (successResults collected) (failureCount collected)

/-- `res` is a possible return value of `QueryTargets` on `targets` with
per-target behaviour `exec`: the collection order is some permutation of
the per-target outcomes (completion order is scheduler-dependent). -/
def IsQueryTargetsRun (dbName : String) (exec : String → TargetBehavior)
    (targets : List String) (res : ExecutionResult) : Prop :=
  ∃ collected, collected.Perm (dispatchOutcomes dbName exec targets) ∧
    res = queryTargetsResult collected

/-- The terminal decision `main` takes from the aggregate result:
`log.Fatal` on complete failure, otherwise write when there are rows or
an established header, otherwise skip the write. -/
inductive RunDecision where
  | fatalAllFailed
  | write (rows : List (List String)) (columns : List String)
  | skipWrite
deriving DecidableEq, Repr

/-- Orchestration in `main` after `executor.QueryTargets` returns:
`if !result.HasResults && result.ErrorCount == len(workload.Targets)`
then `log.Fatal` (process exits non-zero, nothing written); then
`if len(result.Rows) > 0 || result.HasResults` invoke `csv.WriteToCSV`
with the aggregated rows and columns; otherwise write nothing. -/
def orchestrate (numTargets : Nat) (res : ExecutionResult) : RunDecision :=
  if res.HasResults = false ∧ res.ErrorCount = numTargets then
    .fatalAllFailed
  else if 0 < res.Rows.length ∨ res.HasResults = true then
    .write res.Rows res.Columns
  else
    .skipWrite

/-- Whether the decision invokes the tabular writer collaborator. -/
def RunDecision.writerInvoked : RunDecision → Bool
  | .write _ _ => true
  | _ => false

/-- Whether the decision makes the process exit non-zero (`log.Fatal`). -/
def RunDecision.exitsNonZero : RunDecision → Bool
  | .fatalAllFailed => true
  | _ => false

/-- `csv.WriteToCSV` writes a header row iff `len(headers) > 0`. -/
def writesHeaderRow (headers : List String) : Bool :=
  decide (0 < headers.length)

/-- `models.Workload`: the job configuration loaded from workload.json. -/
structure Workload where
  Workers : Int
  Targets : List String
  Output : String
  FilterPattern : String
  Query : String
  OutputDir : String
  OutputFile : String
deriving DecidableEq, Repr

/-- The fallback workload `main` builds when the configuration file
cannot be loaded. -/
def defaultWorkload : Workload :=
  { Workers := 1, Targets := [], Output := "results.csv",
    FilterPattern := "*.log", Query := "", OutputDir := "./output",
    OutputFile := "query_results" }

/-- The workload `main` actually uses: the fallback on load failure, and
on success the loaded value with `Workers <= 0` coerced to 1 ("Ensure
Workers is at least 1"). -/
def loadedWorkload : Option Workload → Workload
  | none => defaultWorkload
  | some w => if w.Workers ≤ 0 then { w with Workers := 1 } else w

/-- Capacity of the admission semaphore in `QueryTargets`:
`make(chan struct{}, workload.Workers)`. -/
def semaphoreCapacity (w : Workload) : Int :=
  w.Workers

/-- Scheduling state of the fan-out loop: targets not yet admitted by
the semaphore, executions currently holding a semaphore slot (in
flight), and finished executions. -/
structure DispatchState where
  pending : Nat
  running : Nat
  finished : Nat
deriving DecidableEq, Repr

/-- One scheduling step with semaphore capacity `cap`: the loop admits a
pending target only when a slot is free (`semaphore <- struct{}{}`
succeeds only while fewer than `cap` slots are held); a running
execution may finish and release its slot (`<-semaphore`). -/
inductive DispatchStep (cap : Nat) : DispatchState → DispatchState → Prop where
  | acquire (s : DispatchState) (hp : 0 < s.pending) (hr : s.running < cap) :
      DispatchStep cap s ⟨s.pending - 1, s.running + 1, s.finished⟩
  | finish (s : DispatchState) (hr : 0 < s.running) :
      DispatchStep cap s ⟨s.pending, s.running - 1, s.finished + 1⟩

/-- Reachability under `DispatchStep`. -/
inductive DispatchReachable (cap : Nat) : DispatchState → DispatchState → Prop where
  | refl (s : DispatchState) : DispatchReachable cap s s
  | tail {s t u : DispatchState} : DispatchReachable cap s t →
      DispatchStep cap t u → DispatchReachable cap s u

/-- Initial scheduling state for `n` targets: all pending, none running. -/
def initState (n : Nat) : DispatchState :=
  ⟨n, 0, 0⟩

/-- The columns of the first result in the list with a non-empty column
sequence, or `[]` when no result has columns: a closed form for the
columns the collection loop ends up with. -/
def firstEstablishedColumns (results : List QueryResult) : List String :=
  match results.find? (fun r => decide (0 < r.Columns.length)) with
  | some r => r.Columns
  | none => []

/-! ### Helper lemmas about the collection loop -/

theorem mem_successResults {r : QueryResult} {l : List Outcome} :
    r ∈ successResults l ↔ Outcome.success r ∈ l := by
  simp only [successResults, List.mem_filterMap]
  constructor
  · rintro ⟨o, ho, heq⟩
    cases o with
    | success q =>
      simp only [Option.some.injEq] at heq
      exact heq ▸ ho
    | failure h m => simp at heq
  · intro h
    exact ⟨Outcome.success r, h, rfl⟩

theorem successResults_length_add_failureCount (l : List Outcome) :
    (successResults l).length + failureCount l = l.length := by
  induction l with
  | nil => rfl
  | cons o rest ih =>
    cases o with
    | success r =>
      simp only [successResults, List.filterMap_cons, failureCount,
        List.countP_cons] at *
      simpa [List.length_cons] using by omega
    | failure h m =>
      simp only [successResults, List.filterMap_cons, failureCount,
        List.countP_cons] at *
      simpa [List.length_cons] using by omega

theorem collectLoop_cons (a : List (List String)) (c : List String) (b : Bool)
    (r : QueryResult) (rest : List QueryResult) :
    collectLoop a c b (r :: rest)
      = collectLoop (if 0 < r.Rows.length then a ++ r.Rows else a)
          (if b = false ∧ 0 < r.Columns.length then r.Columns else c)
          (if b = false ∧ 0 < r.Columns.length then true else b) rest := rfl

theorem collectLoop_rows (results : List QueryResult) :
    ∀ a c b, (collectLoop a c b results).1
      = a ++ (results.map QueryResult.Rows).flatten := by
  induction results with
  | nil => intro a c b; simp [collectLoop]
  | cons r rest ih =>
    intro a c b
    rw [collectLoop_cons, ih]
    by_cases h : 0 < r.Rows.length
    · rw [if_pos h]
      simp [List.append_assoc]
    · have hnil : r.Rows = [] := List.length_eq_zero.mp (Nat.eq_zero_of_not_pos h)
      rw [if_neg h]
      simp [hnil]

theorem collectLoop_hasResults (results : List QueryResult) :
    ∀ a c b, (collectLoop a c b results).2.2
      = (b || results.any fun r => decide (0 < r.Columns.length)) := by
  induction results with
  | nil => intro a c b; simp [collectLoop]
  | cons r rest ih =>
    intro a c b
    rw [collectLoop_cons, ih, List.any_cons]
    cases b with
    | true => simp
    | false =>
      by_cases hcol : 0 < r.Columns.length
      · simp [hcol]
      · simp [hcol]

theorem collectLoop_columns_of_true (results : List QueryResult) :
    ∀ a c, (collectLoop a c true results).2.1 = c := by
  induction results with
  | nil => intro a c; rfl
  | cons r rest ih =>
    intro a c
    rw [collectLoop_cons]
    have hpick : ¬(true = false ∧ 0 < r.Columns.length) := by simp
    rw [if_neg hpick, if_neg hpick]
    exact ih _ _

theorem collectLoop_columns_of_false (results : List QueryResult) :
    ∀ a c, (collectLoop a c false results).2.1
      = (match results.find? (fun r => decide (0 < r.Columns.length)) with
         | some r => r.Columns
         | none => c) := by
  induction results with
  | nil => intro a c; rfl
  | cons r rest ih =>
    intro a c
    rw [collectLoop_cons]
    by_cases hcol : 0 < r.Columns.length
    · have hpick : (false = false ∧ 0 < r.Columns.length) := ⟨rfl, hcol⟩
      rw [if_pos hpick, if_pos hpick, collectLoop_columns_of_true,
        List.find?_cons_of_pos _ (by simpa using hcol)]
    · have hpick : ¬(false = false ∧ 0 < r.Columns.length) := by simp [hcol]
      rw [if_neg hpick, if_neg hpick, ih,
        List.find?_cons_of_neg _ (by simpa using hcol)]

theorem aggregate_errorCount (results : List QueryResult) (errorCount : Nat) :
    (aggregate results errorCount).ErrorCount = errorCount := rfl

theorem aggregate_rows (results : List QueryResult) (errorCount : Nat) :
    (aggregate results errorCount).Rows = (results.map QueryResult.Rows).flatten := by
  have := collectLoop_rows results [] [] false
  simpa [aggregate] using this

theorem aggregate_hasResults (results : List QueryResult) (errorCount : Nat) :
    (aggregate results errorCount).HasResults
      = results.any fun r => decide (0 < r.Columns.length) := by
  have := collectLoop_hasResults results [] [] false
  simpa [aggregate] using this

theorem aggregate_columns (results : List QueryResult) (errorCount : Nat) :
    (aggregate results errorCount).Columns = firstEstablishedColumns results := by
  have := collectLoop_columns_of_false results [] []
  simpa [aggregate, firstEstablishedColumns] using this

theorem firstEstablishedColumns_ne_nil_iff (results : List QueryResult) :
    firstEstablishedColumns results ≠ []
      ↔ (results.any fun r => decide (0 < r.Columns.length)) = true := by
  induction results with
  | nil => simp [firstEstablishedColumns]
  | cons r rest ih =>
    by_cases hcol : 0 < r.Columns.length
    · rw [firstEstablishedColumns, List.find?_cons_of_pos _ (by simpa using hcol)]
      simp only [List.any_cons]
      constructor
      · intro _
        simp [hcol]
      · intro _
        exact List.length_pos.mp hcol
    · rw [firstEstablishedColumns, List.find?_cons_of_neg _ (by simpa using hcol)]
      simp only [List.any_cons]
      rw [← firstEstablishedColumns]
      simpa [hcol] using ih

/-! ### Claim theorems -/

/-- C1: every run of the Dispatcher yields exactly one per-target outcome
per input target — the number of Success results collected plus the
failure count (`ErrorCount`) equals the number of targets, for every
collection (completion) order, hence regardless of the worker limit W. -/
theorem dispatcher_completeness (dbName : String) (exec : String → TargetBehavior)
    (targets : List String) (collected : List Outcome)
    (hperm : collected.Perm (dispatchOutcomes dbName exec targets)) :
    (successResults collected).length + (queryTargetsResult collected).ErrorCount
      = targets.length := by
  have h1 : (queryTargetsResult collected).ErrorCount = failureCount collected := rfl
  rw [h1, successResults_length_add_failureCount, hperm.length_eq,
    dispatchOutcomes, List.length_map]

/-- Witness for C1 at a concrete run: two targets that both fail to
connect give 0 successes and 2 errors. -/
theorem dispatcher_completeness_witness :
    (successResults (dispatchOutcomes "db" (fun _ => .connectFail "e") ["A", "B"])).length
      + (queryTargetsResult
          (dispatchOutcomes "db" (fun _ => .connectFail "e") ["A", "B"])).ErrorCount
      = 2 :=
  dispatcher_completeness "db" (fun _ => .connectFail "e") ["A", "B"]
    (dispatchOutcomes "db" (fun _ => .connectFail "e") ["A", "B"]) (List.Perm.refl _)

/-- C2: in every state the dispatcher's fan-out loop can reach, at most
`cap` target executions hold a semaphore slot simultaneously, where
`cap` is the worker limit the semaphore was created with; a pending
target is admitted only while a slot is free. -/
theorem bounded_concurrency (cap n : Nat) (s : DispatchState)
    (h : DispatchReachable cap (initState n) s) : s.running ≤ cap := by
  have key : ∀ t : DispatchState, DispatchReachable cap (initState n) t →
      t.running ≤ cap := by
    intro t ht
    induction ht with
    | refl => simp [initState]
    | tail hreach hstep ih =>
      cases hstep with
      | acquire hp hr => simpa using hr
      | finish hr =>
        simp only
        omega
  exact key s h

/-- Witness for C2: with W = 1 and two targets, the state after
admitting one target is reachable and has 1 ≤ 1 executions running. -/
theorem bounded_concurrency_witness :
    (⟨1, 1, 0⟩ : DispatchState).running ≤ 1 :=
  bounded_concurrency 1 2 ⟨1, 1, 0⟩
    (DispatchReachable.tail (DispatchReachable.refl _)
      (DispatchStep.acquire (initState 2) (by decide) (by decide)))

/-- C3: when every target of a non-empty target list failed
(`ErrorCount` equals the number of targets), orchestration takes the
fatal branch: the process exits non-zero and the tabular writer is
never invoked, so no output file is produced. -/
theorem all_failed_fatal (dbName : String) (exec : String → TargetBehavior)
    (targets : List String) (collected : List Outcome)
    (hperm : collected.Perm (dispatchOutcomes dbName exec targets))
    (hall : (queryTargetsResult collected).ErrorCount = targets.length)
    (_hne : 0 < targets.length) :
    orchestrate targets.length (queryTargetsResult collected)
        = RunDecision.fatalAllFailed ∧
    (orchestrate targets.length (queryTargetsResult collected)).writerInvoked
        = false ∧
    (orchestrate targets.length (queryTargetsResult collected)).exitsNonZero
        = true := by
  have hfc : failureCount collected = targets.length := hall
  have hlen := successResults_length_add_failureCount collected
  have hclen : collected.length = targets.length := by
    rw [hperm.length_eq, dispatchOutcomes, List.length_map]
  have hs0 : (successResults collected).length = 0 := by omega
  have hsnil : successResults collected = [] := List.length_eq_zero.mp hs0
  have hhr : (queryTargetsResult collected).HasResults = false := by
    unfold queryTargetsResult
    rw [hsnil]
    rfl
  have hfatal : orchestrate targets.length (queryTargetsResult collected)
      = RunDecision.fatalAllFailed := by
    unfold orchestrate
    rw [if_pos ⟨hhr, hall⟩]
  exact ⟨hfatal, by rw [hfatal]; rfl, by rw [hfatal]; rfl⟩

/-- Witness for C3: two targets, both failing to connect. -/
theorem all_failed_fatal_witness :
    orchestrate 2 (queryTargetsResult
        (dispatchOutcomes "db" (fun _ => .connectFail "e") ["A", "B"]))
        = RunDecision.fatalAllFailed ∧
    (orchestrate 2 (queryTargetsResult
        (dispatchOutcomes "db" (fun _ => .connectFail "e") ["A", "B"]))).writerInvoked
        = false ∧
    (orchestrate 2 (queryTargetsResult
        (dispatchOutcomes "db" (fun _ => .connectFail "e") ["A", "B"]))).exitsNonZero
        = true :=
  all_failed_fatal "db" (fun _ => .connectFail "e") ["A", "B"]
    (dispatchOutcomes "db" (fun _ => .connectFail "e") ["A", "B"])
    (List.Perm.refl _) (by decide) (by decide)

/-- A Success whose column sequence is empty but whose rows are not:
the input refuting C4 as stated. -/
def cexFirst : QueryResult := ⟨[], [["x"]]⟩

/-- A later Success with a non-empty column sequence. -/
def cexSecond : QueryResult := ⟨["a"], [["1"]]⟩

/-- C4 counterexample: when the first Success processed in collection
order has an empty column sequence, the Aggregate Result's columns are
NOT taken from it — the collection loop skips it (its guard is
`!hasResults && len(result.Columns) > 0`) and adopts the columns of a
later Success instead. Here the first Success processed is `cexFirst`
(columns `[]`), yet the aggregate's columns are `["a"]`, `cexSecond`'s. -/
theorem header_provenance_cex :
    successResults [Outcome.success cexFirst, Outcome.success cexSecond]
        = [cexFirst, cexSecond] ∧
    (queryTargetsResult [Outcome.success cexFirst, Outcome.success cexSecond]).Columns
        = ["a"] ∧
    cexFirst.Columns ≠ ["a"] := by
  refine ⟨rfl, rfl, ?_⟩
  decide

/-- C4 amended: the Aggregate Result's column-name sequence equals the
column sequence of the first Success in collection order whose column
sequence is non-empty (and is empty when no Success has columns); the
column names of every other Success are discarded and never validated
against it. -/
theorem header_provenance_first_established (collected : List Outcome) :
    (queryTargetsResult collected).Columns
      = firstEstablishedColumns (successResults collected) :=
  aggregate_columns (successResults collected) (failureCount collected)

/-- C5: the Aggregate Result's `HasResults` flag is true iff at least
one Success in the collection carries a non-empty column-name sequence;
a Success with zero columns (even with rows) does not establish
results. -/
theorem hasResults_iff_success_with_columns (collected : List Outcome) :
    (queryTargetsResult collected).HasResults = true
      ↔ ∃ r, Outcome.success r ∈ collected ∧ r.Columns ≠ [] := by
  unfold queryTargetsResult
  rw [aggregate_hasResults, List.any_eq_true]
  constructor
  · rintro ⟨r, hmem, hcol⟩
    exact ⟨r, mem_successResults.mp hmem,
      List.length_pos.mp (of_decide_eq_true hcol)⟩
  · rintro ⟨r, hmem, hcol⟩
    exact ⟨r, mem_successResults.mpr hmem,
      decide_eq_true (List.length_pos.mpr hcol)⟩

/-- C6: the Aggregate Result's row sequence is the concatenation, in
the order Successes are processed, of each Success's rows — rows of one
Success stay contiguous and in per-target order, never interleaved with
another Success's rows. -/
theorem rows_concatenation (collected : List Outcome) :
    (queryTargetsResult collected).Rows
      = ((successResults collected).map QueryResult.Rows).flatten :=
  aggregate_rows (successResults collected) (failureCount collected)

/-- C7: a target whose connect step fails yields exactly one outcome —
a Failure tagged with that target's host — and its goroutine never
reaches the query step; every other target still gets its own outcome
(the dispatcher produces one outcome per target regardless). -/
theorem connect_failure_isolation (dbName host err : String)
    (exec : String → TargetBehavior) (targets : List String)
    (hbeh : exec host = TargetBehavior.connectFail err) :
    (runTarget dbName host (exec host)).queryInvoked = false ∧
    (runTarget dbName host (exec host)).outcome
        = Outcome.failure host (connectFailMsg dbName host err) ∧
    (dispatchOutcomes dbName exec targets).length = targets.length := by
  rw [hbeh]
  exact ⟨rfl, rfl, by rw [dispatchOutcomes, List.length_map]⟩

/-- Witness for C7: host "A" fails to connect among targets ["A","B"]. -/
theorem connect_failure_isolation_witness :
    (runTarget "db" "A"
        ((fun h => if h = "A" then TargetBehavior.connectFail "boom"
          else TargetBehavior.success ⟨["c"], []⟩) "A")).queryInvoked = false ∧
    (runTarget "db" "A"
        ((fun h => if h = "A" then TargetBehavior.connectFail "boom"
          else TargetBehavior.success ⟨["c"], []⟩) "A")).outcome
        = Outcome.failure "A" (connectFailMsg "db" "A" "boom") ∧
    (dispatchOutcomes "db"
        (fun h => if h = "A" then TargetBehavior.connectFail "boom"
          else TargetBehavior.success ⟨["c"], []⟩) ["A", "B"]).length = 2 :=
  connect_failure_isolation "db" "A" "boom"
    (fun h => if h = "A" then TargetBehavior.connectFail "boom"
      else TargetBehavior.success ⟨["c"], []⟩) ["A", "B"] (by decide)

/-- C8: a Job whose configured worker count is non-positive has its
worker limit coerced to 1 by `main` before the Dispatcher runs, so the
semaphore `QueryTargets` creates has capacity 1. -/
theorem workers_coerced (w : Workload) (h : w.Workers ≤ 0) :
    semaphoreCapacity (loadedWorkload (some w)) = 1 := by
  rw [loadedWorkload, if_pos h]
  rfl

/-- Witness for C8 at Workers = 0. -/
theorem workers_coerced_witness :
    semaphoreCapacity (loadedWorkload (some { defaultWorkload with Workers := 0 })) = 1 :=
  workers_coerced { defaultWorkload with Workers := 0 } (by decide)

/-- C9: in every `ExecutionResult` the aggregation phase produces,
`HasResults` is true iff `Columns` is non-empty — the two fields are set
together and only together. -/
theorem hasResults_iff_columns_nonempty (results : List QueryResult)
    (errorCount : Nat) :
    ((aggregate results errorCount).HasResults = true
      ↔ (aggregate results errorCount).Columns ≠ []) := by
  rw [aggregate_hasResults, aggregate_columns]
  exact (firstEstablishedColumns_ne_nil_iff results).symm

/-- C10: a Success with an empty column sequence but non-empty rows
still contributes all of its rows (contiguously) to the aggregate row
sequence while leaving `HasResults` false and `Columns` empty (here: in
a collection where no Success has columns); with at least one target
not failed, orchestration still invokes the writer — `len(Rows) > 0`
triggers the write — and `WriteToCSV` writes no header row. -/
theorem zero_column_success_rows_written (results : List QueryResult)
    (r : QueryResult) (errorCount numTargets : Nat)
    (hall : ∀ q ∈ results, q.Columns = []) (hr : r ∈ results)
    (hrows : r.Rows ≠ []) (herr : errorCount < numTargets) :
    (∃ before after,
        (aggregate results errorCount).Rows = before ++ (r.Rows ++ after)) ∧
    (aggregate results errorCount).HasResults = false ∧
    (aggregate results errorCount).Columns = [] ∧
    (orchestrate numTargets (aggregate results errorCount)).writerInvoked
        = true ∧
    writesHeaderRow (aggregate results errorCount).Columns = false := by
  have hnone : ∀ q ∈ results, ¬((fun q => decide (0 < q.Columns.length)) q = true) := by
    intro q hq
    simp [hall q hq]
  have hanyf : (results.any fun q => decide (0 < q.Columns.length)) = false := by
    rw [List.any_eq_false]
    exact hnone
  have hhr : (aggregate results errorCount).HasResults = false := by
    rw [aggregate_hasResults, hanyf]
  have hcols : (aggregate results errorCount).Columns = [] := by
    rw [aggregate_columns, firstEstablishedColumns, List.find?_eq_none.mpr hnone]
  obtain ⟨l1, l2, rfl⟩ := List.append_of_mem hr
  have hdecomp : (aggregate (l1 ++ r :: l2) errorCount).Rows
      = (l1.map QueryResult.Rows).flatten
        ++ (r.Rows ++ (l2.map QueryResult.Rows).flatten) := by
    rw [aggregate_rows, List.map_append, List.flatten_append, List.map_cons,
      List.flatten_cons]
  have hrowsne : (aggregate (l1 ++ r :: l2) errorCount).Rows ≠ [] := by
    rw [hdecomp]
    intro hcontra
    rcases List.append_eq_nil.mp hcontra with ⟨-, h2⟩
    rcases List.append_eq_nil.mp h2 with ⟨h3, -⟩
    exact hrows h3
  have hwrite : orchestrate numTargets (aggregate (l1 ++ r :: l2) errorCount)
      = RunDecision.write (aggregate (l1 ++ r :: l2) errorCount).Rows
          (aggregate (l1 ++ r :: l2) errorCount).Columns := by
    unfold orchestrate
    rw [if_neg (by
      rintro ⟨-, hec⟩
      rw [aggregate_errorCount] at hec
      omega)]
    rw [if_pos (Or.inl (List.length_pos.mpr hrowsne))]
  refine ⟨⟨(l1.map QueryResult.Rows).flatten, (l2.map QueryResult.Rows).flatten,
    hdecomp⟩, hhr, hcols, ?_, ?_⟩
  · rw [hwrite]
    rfl
  · rw [hcols]
    rfl

/-- Witness for C10: one target succeeding with zero columns and one
row, out of one target. -/
theorem zero_column_success_rows_written_witness :
    (∃ before after,
        (aggregate [⟨[], [["x"]]⟩] 0).Rows = before ++ ([["x"]] ++ after)) ∧
    (aggregate [⟨[], [["x"]]⟩] 0).HasResults = false ∧
    (aggregate [⟨[], [["x"]]⟩] 0).Columns = [] ∧
    (orchestrate 1 (aggregate [⟨[], [["x"]]⟩] 0)).writerInvoked = true ∧
    writesHeaderRow (aggregate [⟨[], [["x"]]⟩] 0).Columns = false :=
  zero_column_success_rows_written [⟨[], [["x"]]⟩] ⟨[], [["x"]]⟩ 0 1
    (by decide) (by decide) (by decide) (by decide)

end DataCollector
